import Mathlib

/-!
Shallow embedding of the two utility scripts of this repository:
`src/scripts/package-and-install.js` (PackageInstaller) and
`src/scripts/set-executable.js` (PermissionSetter), together with
theorems settling the specification claims about them.

The filesystem is modelled explicitly: for PermissionSetter as a map
from path to optional permission mode (`none` = file missing, so
`fs.statSync` throws), for PackageInstaller as an existence predicate.
External commands (`npm pack`, `npm install -g`) are modelled by their
observable outcome recorded in the environment.
-/

namespace TaskMaster

/-- `path.join(a, b)` for the simple two-segment uses in the scripts. -/
def pathJoin (a b : String) : String := a ++ "/" ++ b

/-! ### JavaScript `String.prototype.trim`

`package-and-install.js` derives the archive name by `output.trim()`.
We embed trimming over the character list of the string. -/

/-- Whitespace characters removed by `trim` (ASCII whitespace suffices
for the shallow embedding). -/
def wsChar (c : Char) : Bool :=
  c == ' ' || c == '\t' || c == '\n' || c == '\r' || c == '\x0b' || c == '\x0c'

/-- Remove leading and trailing whitespace from a character list. -/
def trimChars (l : List Char) : List Char :=
  ((l.dropWhile wsChar).reverse.dropWhile wsChar).reverse

/-- `output.trim()` from the script, as a string operation. -/
def jsTrim (s : String) : String := String.mk (trimChars s.data)

/-! ### PackageInstaller (`src/scripts/package-and-install.js`)

```js
try {
  const output = execSync('npm pack', { encoding: 'utf-8' });
  const tgzFile = output.trim();
  if (!fs.existsSync(tgzFile)) {
    throw new Error(`Failed to create .tgz file: ${tgzFile}`);
  }
  execSync(`npm install -g ${path.join(process.cwd(), tgzFile)}`, { stdio: 'inherit' });
  fs.unlinkSync(tgzFile);
} catch (error) {
  console.error('An error occurred:', error.message);
  process.exit(1);
}
```
-/

/-- Environment of one PackageInstaller run: the outcome of `npm pack`
(stdout on success, error message if it throws), the filesystem
existence predicate, the outcome of `npm install -g <path>` as a
function of the path passed to it (`none` = success), and the current
working directory. -/
structure InstallEnv where
  packOutput : Except String String
  fsExists : String → Bool
  installErr : String → Option String
  cwd : String

/-- Observable result of one PackageInstaller run. -/
structure InstallResult where
  exitCode : Nat
  archiveName : Option String
  installInvoked : Option String
  deleted : Bool
  finalExists : String → Bool
  errorLogged : Option String

/-- The PackageInstaller run, mirroring the control flow of
`package-and-install.js` step by step: pack, trim, existence check,
global install with the absolute path, unlink, with every thrown error
reaching the single top-level catch that logs it and exits 1. A
successful `fs.unlinkSync` removes the archive from the filesystem. -/
def packageAndInstall (env : InstallEnv) : InstallResult :=
  match env.packOutput with
  | .error msg =>
      { exitCode := 1, archiveName := none, installInvoked := none,
        deleted := false, finalExists := env.fsExists, errorLogged := some msg }
  | .ok output =>
      let tgzFile := jsTrim output
      if env.fsExists tgzFile = false then
        { exitCode := 1, archiveName := some tgzFile, installInvoked := none,
          deleted := false, finalExists := env.fsExists,
          errorLogged := some ("Failed to create .tgz file: " ++ tgzFile) }
      else
        let fullPath := pathJoin env.cwd tgzFile
        match env.installErr fullPath with
        | some msg =>
            { exitCode := 1, archiveName := some tgzFile,
              installInvoked := some fullPath, deleted := false,
              finalExists := env.fsExists, errorLogged := some msg }
        | none =>
            { exitCode := 0, archiveName := some tgzFile,
              installInvoked := some fullPath, deleted := true,
              finalExists := fun f => if f = tgzFile then false else env.fsExists f,
              errorLogged := none }

/-- The first error raised by the four steps of the run, if any:
pack failure, then the missing-archive error, then install failure;
the delete step cannot fail after the existence check has passed. -/
def firstStepError (env : InstallEnv) : Option String :=
  match env.packOutput with
  | .error msg => some msg
  | .ok output =>
      let tgzFile := jsTrim output
      if env.fsExists tgzFile = false then
        some ("Failed to create .tgz file: " ++ tgzFile)
      else
        env.installErr (pathJoin env.cwd tgzFile)

/-! ### PermissionSetter (`src/scripts/set-executable.js`)

```js
const files = [path.join('bin', 'task-master.js'), path.join('mcp-server', 'server.js')];
files.forEach((file) => {
  try {
    const stats = fs.statSync(file);
    fs.chmodSync(file, stats.mode | 0o111);
  } catch (error) {
    console.error(`Failed to set executable permissions for: ${file}`, error);
  }
});
```
-/

/-- The fixed path list of `set-executable.js`. -/
def files : List String :=
  [pathJoin "bin" "task-master.js", pathJoin "mcp-server" "server.js"]

/-- The `forEach` loop over an explicit path list: for each path in
order, stat it (throws when missing, caught and logged as a failure
entry for that path) and chmod it to `mode | 0o111`. Returns the
final filesystem and the per-path log `(path, success?)` in
processing order. -/
def runPaths (fs : String → Option Nat) :
    List String → ((String → Option Nat) × List (String × Bool))
  | [] => (fs, [])
  | p :: rest =>
      match fs p with
      | none =>
          let r := runPaths fs rest
          (r.1, (p, false) :: r.2)
      | some m =>
          let fs' := fun q => if q = p then some (m ||| 0o111) else fs q
          let r := runPaths fs' rest
          (r.1, (p, true) :: r.2)

/-- The PermissionSetter run of `set-executable.js`: the loop applied
to the fixed path list. -/
def setExecutable (fs : String → Option Nat) :
    (String → Option Nat) × List (String × Bool) :=
  runPaths fs files

/-! ### Helper lemmas -/

theorem lor_lor_self (m a : Nat) : (m ||| a) ||| a = m ||| a := by
  rw [Nat.lor_assoc, Nat.or_self]

/-- Final mode of any path after the loop: paths in the list get their
mode OR-ed with `0o111`; everything else is untouched. -/
theorem runPaths_fst (paths : List String) (fs : String → Option Nat) (p : String) :
    (runPaths fs paths).1 p =
      if p ∈ paths then (fs p).map (fun m => m ||| 0o111) else fs p := by
  induction paths generalizing fs with
  | nil => simp [runPaths]
  | cons hd rest ih =>
      by_cases hp : p = hd
      · subst hp
        cases hfs : fs p with
        | none =>
            simp only [runPaths, hfs, ih]
            by_cases hmem : p ∈ rest <;> simp [hmem, hfs]
        | some m =>
            simp only [runPaths, hfs, ih]
            by_cases hmem : p ∈ rest <;>
              simp [hmem, hfs, lor_lor_self]
      · cases hfs : fs hd with
        | none =>
            simp only [runPaths, hfs, ih]
            by_cases hmem : p ∈ rest <;> simp [hmem, hp]
        | some m =>
            simp only [runPaths, hfs, ih]
            by_cases hmem : p ∈ rest <;> simp [hmem, hp]

/-- The log of the loop: one entry per path, in order, recording
whether that path existed (stat succeeded). Chmod never changes
existence, so the recorded outcome only depends on the initial
filesystem. -/
theorem runPaths_snd (paths : List String) (fs : String → Option Nat) :
    (runPaths fs paths).2 = paths.map (fun p => (p, (fs p).isSome)) := by
  induction paths generalizing fs with
  | nil => simp [runPaths]
  | cons hd rest ih =>
      cases hfs : fs hd with
      | none => simp [runPaths, hfs, ih]
      | some m =>
          simp only [runPaths, hfs, ih, List.map_cons, Option.isSome_some,
            List.cons.injEq, true_and]
          exact List.map_congr_left fun q _ => by
            by_cases hq : q = hd <;> simp [hq, hfs]

/-! ### Trimming lemmas -/

/-- The part removed from the right by `trimChars` is a whitespace
suffix of the whitespace-prefix-stripped list. -/
theorem dropWhile_eq_trimChars_append (l : List Char) :
    l.dropWhile wsChar =
      trimChars l ++ ((l.dropWhile wsChar).reverse.takeWhile wsChar).reverse := by
  rw [trimChars, ← List.reverse_append, List.takeWhile_append_dropWhile,
    List.reverse_reverse]

theorem trimChars_decomp (l : List Char) :
    ∃ pre post, l = pre ++ trimChars l ++ post ∧
      pre.all wsChar = true ∧ post.all wsChar = true := by
  refine ⟨l.takeWhile wsChar,
    ((l.dropWhile wsChar).reverse.takeWhile wsChar).reverse, ?_,
    List.all_takeWhile, by rw [List.all_reverse]; exact List.all_takeWhile⟩
  conv_lhs => rw [← List.takeWhile_append_dropWhile (p := wsChar) (l := l)]
  conv_lhs => rw [dropWhile_eq_trimChars_append l]
  rw [← List.append_assoc]

theorem wsChar_eq_false_of_head?_dropWhile {l : List Char} {c : Char}
    (h : (l.dropWhile wsChar).head? = some c) : wsChar c = false := by
  have hh := List.head?_dropWhile_not wsChar l
  rw [h] at hh
  exact hh

/-- The first kept character is not whitespace (nothing more could be
removed from the left). -/
theorem trimChars_head_not_ws {l : List Char} {c : Char}
    (h : (trimChars l).head? = some c) : wsChar c = false := by
  apply wsChar_eq_false_of_head?_dropWhile (l := l)
  rw [dropWhile_eq_trimChars_append l]
  cases ht : trimChars l with
  | nil => rw [ht] at h; simp at h
  | cons x t =>
      rw [ht] at h
      simp only [List.head?_cons, Option.some.injEq] at h
      subst h
      simp

/-- The last kept character is not whitespace (nothing more could be
removed from the right). -/
theorem trimChars_getLast_not_ws {l : List Char} {c : Char}
    (h : (trimChars l).getLast? = some c) : wsChar c = false := by
  apply wsChar_eq_false_of_head?_dropWhile (l := (l.dropWhile wsChar).reverse)
  rw [trimChars] at h
  rw [List.getLast?_reverse] at h
  exact h

/-! ### Concrete environments used by the witnesses -/

/-- A run in which `npm pack` prints the archive name with a trailing
newline, the archive exists, and the global install succeeds. -/
def envOk : InstallEnv :=
  { packOutput := .ok "pkg-1.0.0.tgz\n"
    fsExists := fun f => f == "pkg-1.0.0.tgz"
    installErr := fun _ => none
    cwd := "/repo" }

/-- Same run except the global install command throws. -/
def envInstallFail : InstallEnv :=
  { envOk with installErr := fun _ => some "npm install failed" }

/-- Same run except the file named by the packing output is absent. -/
def envMissing : InstallEnv :=
  { envOk with fsExists := fun _ => false }

/-! ### Claim theorems: PackageInstaller -/

/-- C1: cleanup invariant. In every run where packing succeeds, the
trimmed archive name exists on disk, and the global install command
succeeds, the archive file is deleted and no longer exists at the end
of the run. -/
theorem packageAndInstall_cleanup (env : InstallEnv) (s : String)
    (hpack : env.packOutput = .ok s)
    (hex : env.fsExists (jsTrim s) = true)
    (hins : env.installErr (pathJoin env.cwd (jsTrim s)) = none) :
    (packageAndInstall env).deleted = true ∧
      (packageAndInstall env).finalExists (jsTrim s) = false := by
  simp [packageAndInstall, hpack, hex, hins]

theorem packageAndInstall_cleanup_witness :
    (packageAndInstall envOk).deleted = true ∧
      (packageAndInstall envOk).finalExists (jsTrim "pkg-1.0.0.tgz\n") = false :=
  packageAndInstall_cleanup envOk "pkg-1.0.0.tgz\n" rfl (by decide) rfl

/-- C2: atomicity on install failure. In every run where packing
succeeds and the archive exists but the install command throws, the
archive is not deleted (it still exists afterwards) and the process
exits with status 1. -/
theorem packageAndInstall_installFail (env : InstallEnv) (s msg : String)
    (hpack : env.packOutput = .ok s)
    (hex : env.fsExists (jsTrim s) = true)
    (hins : env.installErr (pathJoin env.cwd (jsTrim s)) = some msg) :
    (packageAndInstall env).deleted = false ∧
      (packageAndInstall env).finalExists (jsTrim s) = true ∧
      (packageAndInstall env).exitCode = 1 := by
  simp [packageAndInstall, hpack, hex, hins]

theorem packageAndInstall_installFail_witness :
    (packageAndInstall envInstallFail).deleted = false ∧
      (packageAndInstall envInstallFail).finalExists (jsTrim "pkg-1.0.0.tgz\n") = true ∧
      (packageAndInstall envInstallFail).exitCode = 1 :=
  packageAndInstall_installFail envInstallFail "pkg-1.0.0.tgz\n"
    "npm install failed" rfl (by decide) rfl

/-- C3: hard stop on missing archive. In every run where packing
succeeds but the file named by the trimmed output does not exist, the
run logs the descriptive error, never invokes the install command,
never deletes anything, and exits with status 1. -/
theorem packageAndInstall_missingArchive (env : InstallEnv) (s : String)
    (hpack : env.packOutput = .ok s)
    (hex : env.fsExists (jsTrim s) = false) :
    (packageAndInstall env).errorLogged =
        some ("Failed to create .tgz file: " ++ jsTrim s) ∧
      (packageAndInstall env).installInvoked = none ∧
      (packageAndInstall env).deleted = false ∧
      (packageAndInstall env).exitCode = 1 := by
  simp [packageAndInstall, hpack, hex]

theorem packageAndInstall_missingArchive_witness :
    (packageAndInstall envMissing).errorLogged =
        some ("Failed to create .tgz file: " ++ jsTrim "pkg-1.0.0.tgz\n") ∧
      (packageAndInstall envMissing).installInvoked = none ∧
      (packageAndInstall envMissing).deleted = false ∧
      (packageAndInstall envMissing).exitCode = 1 :=
  packageAndInstall_missingArchive envMissing "pkg-1.0.0.tgz\n" rfl rfl

/-- C4: top-level failure semantics. In every run, the logged error is
exactly the first error raised by the four steps, and the exit code is
1 when some step failed and 0 when all steps completed. -/
theorem packageAndInstall_exit (env : InstallEnv) :
    (packageAndInstall env).errorLogged = firstStepError env ∧
      (packageAndInstall env).exitCode =
        (if (firstStepError env).isSome then 1 else 0) := by
  cases hpack : env.packOutput with
  | error msg => simp [packageAndInstall, firstStepError, hpack]
  | ok s =>
      by_cases hex : env.fsExists (jsTrim s) = false
      · simp [packageAndInstall, firstStepError, hpack, hex]
      · cases hins : env.installErr (pathJoin env.cwd (jsTrim s)) with
        | none => simp [packageAndInstall, firstStepError, hpack, hex, hins]
        | some msg => simp [packageAndInstall, firstStepError, hpack, hex, hins]

/-- C7: install invocation. In every run where packing succeeds and
the trimmed archive name exists, the install command is invoked with
the absolute path (the current working directory joined with the
archive name), and the archive is deleted only if that install command
succeeded. -/
theorem packageAndInstall_invocation (env : InstallEnv) (s : String)
    (hpack : env.packOutput = .ok s)
    (hex : env.fsExists (jsTrim s) = true) :
    (packageAndInstall env).installInvoked =
        some (pathJoin env.cwd (jsTrim s)) ∧
      ((packageAndInstall env).deleted = true →
        env.installErr (pathJoin env.cwd (jsTrim s)) = none) := by
  cases hins : env.installErr (pathJoin env.cwd (jsTrim s)) <;>
    simp [packageAndInstall, hpack, hex, hins]

theorem packageAndInstall_invocation_witness :
    (packageAndInstall envOk).installInvoked =
        some (pathJoin envOk.cwd (jsTrim "pkg-1.0.0.tgz\n")) ∧
      ((packageAndInstall envOk).deleted = true →
        envOk.installErr (pathJoin envOk.cwd (jsTrim "pkg-1.0.0.tgz\n")) = none) :=
  packageAndInstall_invocation envOk "pkg-1.0.0.tgz\n" rfl (by decide)

/-- C8: archive-name derivation. In every run where packing succeeds
with output `s`, the archive name used by the subsequent steps is
exactly `s` with leading and trailing whitespace removed: `s`
decomposes as a whitespace prefix, the archive name verbatim, and a
whitespace suffix, and the archive name itself neither starts nor ends
with whitespace. -/
theorem packageAndInstall_archiveName (env : InstallEnv) (s : String)
    (hpack : env.packOutput = .ok s) :
    (packageAndInstall env).archiveName = some (jsTrim s) ∧
      (∃ pre post, s.data = pre ++ (jsTrim s).data ++ post ∧
        pre.all wsChar = true ∧ post.all wsChar = true) ∧
      (∀ c, (jsTrim s).data.head? = some c → wsChar c = false) ∧
      (∀ c, (jsTrim s).data.getLast? = some c → wsChar c = false) := by
  refine ⟨?_, trimChars_decomp s.data,
    fun c h => trimChars_head_not_ws h, fun c h => trimChars_getLast_not_ws h⟩
  by_cases hex : env.fsExists (jsTrim s) = false
  · simp [packageAndInstall, hpack, hex]
  · cases hins : env.installErr (pathJoin env.cwd (jsTrim s)) <;>
      simp [packageAndInstall, hpack, hex, hins]

theorem packageAndInstall_archiveName_witness :
    (packageAndInstall envOk).archiveName = some (jsTrim "pkg-1.0.0.tgz\n") ∧
      (∃ pre post,
        ("pkg-1.0.0.tgz\n" : String).data =
          pre ++ (jsTrim "pkg-1.0.0.tgz\n").data ++ post ∧
        pre.all wsChar = true ∧ post.all wsChar = true) ∧
      (∀ c, (jsTrim "pkg-1.0.0.tgz\n").data.head? = some c → wsChar c = false) ∧
      (∀ c, (jsTrim "pkg-1.0.0.tgz\n").data.getLast? = some c → wsChar c = false) :=
  packageAndInstall_archiveName envOk "pkg-1.0.0.tgz\n" rfl

/-! ### Claim theorems: PermissionSetter -/

/-- `0o111` has no bit set outside positions 0, 3 and 6. -/
theorem testBit_0o111_eq_false {i : Nat} (h0 : i ≠ 0) (h3 : i ≠ 3) (h6 : i ≠ 6) :
    Nat.testBit 0o111 i = false := by
  by_cases h : i < 7
  · interval_cases i <;> first | decide | simp_all
  · have hlt : (0o111 : Nat) < 2 ^ i :=
      lt_of_lt_of_le (show (0o111 : Nat) < 2 ^ 7 by decide)
        (Nat.pow_le_pow_right (by decide) (by omega))
    exact Nat.testBit_eq_false_of_lt hlt

/-- A concrete initial filesystem: the CLI entry script exists with
mode `0644`, everything else is missing. -/
def fsBinOnly : String → Option Nat :=
  fun q => if q = pathJoin "bin" "task-master.js" then some 0o644 else none

/-- C5: postcondition. Every path of the fixed list that exists with
mode `m` before the run has mode `m ||| 0o111` afterwards; that mode
has all three execute bits (positions 0, 3 and 6) set, and `0644`
becomes `0755`. -/
theorem setExecutable_postcondition (fs : String → Option Nat) (p : String) (m : Nat)
    (hp : p ∈ files) (hm : fs p = some m) :
    (setExecutable fs).1 p = some (m ||| 0o111) ∧
      (m ||| 0o111).testBit 0 = true ∧
      (m ||| 0o111).testBit 3 = true ∧
      (m ||| 0o111).testBit 6 = true ∧
      (m = 0o644 → m ||| 0o111 = 0o755) := by
  refine ⟨?_, ?_, ?_, ?_, fun hm644 => by subst hm644; decide⟩
  · rw [setExecutable, runPaths_fst, if_pos hp, hm]
    rfl
  · rw [Nat.testBit_lor]
    simp [show Nat.testBit 0o111 0 = true by decide]
  · rw [Nat.testBit_lor]
    simp [show Nat.testBit 0o111 3 = true by decide]
  · rw [Nat.testBit_lor]
    simp [show Nat.testBit 0o111 6 = true by decide]

theorem setExecutable_postcondition_witness :
    (setExecutable fsBinOnly).1 (pathJoin "bin" "task-master.js") =
        some (0o644 ||| 0o111) ∧
      ((0o644 : Nat) ||| 0o111).testBit 0 = true ∧
      ((0o644 : Nat) ||| 0o111).testBit 3 = true ∧
      ((0o644 : Nat) ||| 0o111).testBit 6 = true ∧
      ((0o644 : Nat) = 0o644 → (0o644 : Nat) ||| 0o111 = 0o755) :=
  setExecutable_postcondition fsBinOnly (pathJoin "bin" "task-master.js") 0o644
    (by simp [files]) (by simp [fsBinOnly])

/-- C6: per-item failure isolation. For every path list containing a
path `p` whose stat fails (the file is missing), the run logs a
failure entry carrying `p` at `p`'s position, and still processes
every path before and after it in order, logging each path's own
outcome. -/
theorem setExecutable_isolation (paths : List String) (fs : String → Option Nat)
    (p : String) (l1 l2 : List String)
    (hsplit : paths = l1 ++ p :: l2) (hfail : fs p = none) :
    (runPaths fs paths).2 =
      l1.map (fun q => (q, (fs q).isSome)) ++
        (p, false) :: l2.map (fun q => (q, (fs q).isSome)) := by
  subst hsplit
  rw [runPaths_snd]
  simp [hfail]

theorem setExecutable_isolation_witness :
    (runPaths fsBinOnly
        [pathJoin "bin" "task-master.js", "missing.js", "extra.js"]).2 =
      [pathJoin "bin" "task-master.js"].map
          (fun q => (q, (fsBinOnly q).isSome)) ++
        ("missing.js", false) ::
          ["extra.js"].map (fun q => (q, (fsBinOnly q).isSome)) :=
  setExecutable_isolation
    [pathJoin "bin" "task-master.js", "missing.js", "extra.js"]
    fsBinOnly "missing.js" [pathJoin "bin" "task-master.js"] ["extra.js"]
    rfl (by decide)

/-- C9: frame property. For every path of the fixed list existing with
mode `m`, the final mode is `m ||| 0o111`: every bit outside the three
execute positions 0, 3 and 6 is unchanged, and no bit that was set is
ever cleared. -/
theorem setExecutable_frame (fs : String → Option Nat) (p : String) (m : Nat)
    (hp : p ∈ files) (hm : fs p = some m) :
    (setExecutable fs).1 p = some (m ||| 0o111) ∧
      (∀ i, i ≠ 0 → i ≠ 3 → i ≠ 6 →
        (m ||| 0o111).testBit i = m.testBit i) ∧
      (∀ i, m.testBit i = true → (m ||| 0o111).testBit i = true) := by
  refine ⟨?_, ?_, ?_⟩
  · rw [setExecutable, runPaths_fst, if_pos hp, hm]
    rfl
  · intro i h0 h3 h6
    rw [Nat.testBit_lor, testBit_0o111_eq_false h0 h3 h6, Bool.or_false]
  · intro i hi
    rw [Nat.testBit_lor, hi, Bool.true_or]

theorem setExecutable_frame_witness :
    (setExecutable fsBinOnly).1 (pathJoin "bin" "task-master.js") =
        some (0o644 ||| 0o111) ∧
      (∀ i, i ≠ 0 → i ≠ 3 → i ≠ 6 →
        ((0o644 : Nat) ||| 0o111).testBit i = (0o644 : Nat).testBit i) ∧
      (∀ i, (0o644 : Nat).testBit i = true →
        ((0o644 : Nat) ||| 0o111).testBit i = true) :=
  setExecutable_frame fsBinOnly (pathJoin "bin" "task-master.js") 0o644
    (by simp [files]) (by simp [fsBinOnly])

/-- C10: idempotence. Running PermissionSetter a second time on the
filesystem produced by the first run changes no file's mode: the final
filesystem of two consecutive runs equals that of one run. -/
theorem setExecutable_idempotent (fs : String → Option Nat) :
    (setExecutable (setExecutable fs).1).1 = (setExecutable fs).1 := by
  funext p
  simp only [setExecutable, runPaths_fst]
  by_cases hp : p ∈ files
  · simp only [if_pos hp]
    cases h : fs p with
    | none => simp
    | some m => simp [lor_lor_self]
  · simp only [if_neg hp]

end TaskMaster
